import Mathlib

/-!
Verification development for lonboard's chunked columnar serialization layer
(`src/lonboard/_layer.py` and the serialization/chunking core described by the
spec). Pure functions from the source are embedded as Lean definitions;
machinery that lives outside the provided sources (the chunker, the planner
`infer_rows_per_chunk`, trait validation of geometry types and unknown fields)
is modelled from the spec, as marked in each doc comment.
-/

namespace Lonboard

/-! ## Chunker

Modelled from the spec: the chunk-splitting code (`lonboard._serialization`)
is not among the provided sources; the spec describes `split(table,
rows_per_chunk)` as slicing the table into consecutive row ranges of
`rows_per_chunk` rows each, the last chunk taking the remainder. -/

/-- Split a list into consecutive chunks of `c` elements; the final chunk
holds whatever remains. Returns `[]` when `c = 0` (invalid plan) or the list
is empty. -/
def splitList (c : Nat) (l : List α) : List (List α) :=
  match l with
  | [] => []
  | x :: xs =>
    if c = 0 then []
    else (x :: xs).take c :: splitList c ((x :: xs).drop c)
termination_by l.length
decreasing_by
  simp only [List.length_drop, List.length_cons]
  omega

theorem splitList_nil (c : Nat) : splitList c ([] : List α) = [] := by
  rw [splitList]

theorem splitList_zero (l : List α) : splitList 0 l = [] := by
  cases l
  · rw [splitList]
  · rw [splitList]; simp

theorem splitList_cons (c : Nat) (hc : 0 < c) (l : List α) (hl : l ≠ []) :
    splitList c l = l.take c :: splitList c (l.drop c) := by
  cases l with
  | nil => exact absurd rfl hl
  | cons x xs =>
    rw [splitList]
    simp only [if_neg (by omega : ¬ c = 0)]

theorem splitList_ne_nil (c : Nat) (hc : 0 < c) (l : List α) (hl : l ≠ []) :
    splitList c l ≠ [] := by
  rw [splitList_cons c hc l hl]
  exact List.cons_ne_nil _ _

/-- Bounded-length induction workhorse: concatenating the chunks restores the
original list. -/
theorem splitList_join_aux (c : Nat) (hc : 0 < c) :
    ∀ (n : Nat) (l : List α), l.length ≤ n → (splitList c l).flatten = l := by
  intro n
  induction n with
  | zero =>
    intro l hl
    have : l = [] := List.eq_nil_of_length_eq_zero (by omega)
    subst this
    rw [splitList_nil]
    rfl
  | succ n ih =>
    intro l hl
    rcases eq_or_ne l [] with rfl | hne
    · rw [splitList_nil]; rfl
    · rw [splitList_cons c hc l hne]
      have hlen : (l.drop c).length ≤ n := by
        simp only [List.length_drop]
        have : 0 < l.length := List.length_pos.mpr hne
        omega
      simp only [List.flatten_cons, ih (l.drop c) hlen, List.take_append_drop]

theorem splitList_join (c : Nat) (hc : 0 < c) (l : List α) :
    (splitList c l).flatten = l :=
  splitList_join_aux c hc l.length l le_rfl

/-- Number of chunks is the ceiling of `length / c`. -/
theorem splitList_length_aux (c : Nat) (hc : 0 < c) :
    ∀ (n : Nat) (l : List α), l.length ≤ n →
      (splitList c l).length = (l.length + c - 1) / c := by
  intro n
  induction n with
  | zero =>
    intro l hl
    have : l = [] := List.eq_nil_of_length_eq_zero (by omega)
    subst this
    rw [splitList_nil]
    simp [Nat.div_eq_of_lt (by omega : c - 1 < c)]
  | succ n ih =>
    intro l hl
    rcases eq_or_ne l [] with rfl | hne
    · rw [splitList_nil]
      simp [Nat.div_eq_of_lt (by omega : c - 1 < c)]
    · rw [splitList_cons c hc l hne]
      have hpos : 0 < l.length := List.length_pos.mpr hne
      have hlen : (l.drop c).length ≤ n := by
        simp only [List.length_drop]; omega
      rw [List.length_cons, ih (l.drop c) hlen, List.length_drop]
      rcases le_or_lt l.length c with hle | hlt
      · have h1 : l.length - c = 0 := by omega
        rw [h1]
        have h2 : (0 + c - 1) / c = 0 := by
          apply Nat.div_eq_of_lt; omega
        have h3 : l.length + c - 1 = (l.length - 1) + c := by omega
        rw [h2, h3, Nat.add_div_right _ hc, Nat.div_eq_of_lt (by omega : l.length - 1 < c)]
      · have h3 : l.length - c + c - 1 = (l.length - c - 1) + c := by omega
        have h4 : l.length + c - 1 = (l.length - 1) + c := by omega
        have h5 : l.length - c - 1 + c = l.length - 1 := by omega
        rw [h3, Nat.add_div_right _ hc, h4, Nat.add_div_right _ hc, ← h5,
          Nat.add_div_right _ hc]

theorem splitList_length (c : Nat) (hc : 0 < c) (l : List α) :
    (splitList c l).length = (l.length + c - 1) / c :=
  splitList_length_aux c hc l.length l le_rfl

/-- Every chunk except the last has exactly `c` elements. -/
theorem splitList_dropLast_aux (c : Nat) (hc : 0 < c) :
    ∀ (n : Nat) (l : List α), l.length ≤ n →
      ∀ ch ∈ (splitList c l).dropLast, ch.length = c := by
  intro n
  induction n with
  | zero =>
    intro l hl ch hch
    have : l = [] := List.eq_nil_of_length_eq_zero (by omega)
    subst this
    rw [splitList_nil] at hch
    simp at hch
  | succ n ih =>
    intro l hl ch hch
    rcases eq_or_ne l [] with rfl | hne
    · rw [splitList_nil] at hch; simp at hch
    · rw [splitList_cons c hc l hne] at hch
      have hpos : 0 < l.length := List.length_pos.mpr hne
      rcases eq_or_ne (l.drop c) [] with hdrop | hdrop
      · rw [hdrop, splitList_nil] at hch
        simp at hch
      · have hsplit : splitList c (l.drop c) ≠ [] := splitList_ne_nil c hc _ hdrop
        rw [List.dropLast_cons_of_ne_nil hsplit] at hch
        rcases List.mem_cons.mp hch with rfl | hch
        · have hdl : c < l.length := by
            by_contra hcon
            exact hdrop (List.drop_eq_nil_of_le (by omega))
          simp [List.length_take]
          omega
        · exact ih (l.drop c) (by simp only [List.length_drop]; omega) ch hch

theorem splitList_dropLast (c : Nat) (hc : 0 < c) (l : List α) :
    ∀ ch ∈ (splitList c l).dropLast, ch.length = c :=
  splitList_dropLast_aux c hc l.length l le_rfl

theorem getLast?_cons_ne_nil (a : α) (l : List α) (h : l ≠ []) :
    (a :: l).getLast? = l.getLast? := by
  cases l with
  | nil => exact absurd rfl h
  | cons b bs => exact List.getLast?_cons_cons

/-- The last chunk has `length mod c` elements, or `c` when `c` divides. -/
theorem splitList_getLast_aux (c : Nat) (hc : 0 < c) :
    ∀ (n : Nat) (l : List α), l.length ≤ n → l ≠ [] →
      ((splitList c l).getLast?).map List.length =
        some (if l.length % c = 0 then c else l.length % c) := by
  intro n
  induction n with
  | zero =>
    intro l hl hne
    exact absurd (List.eq_nil_of_length_eq_zero (by omega)) hne
  | succ n ih =>
    intro l hl hne
    rw [splitList_cons c hc l hne]
    have hpos : 0 < l.length := List.length_pos.mpr hne
    rcases eq_or_ne (l.drop c) [] with hdrop | hdrop
    · have hle : l.length ≤ c := List.drop_eq_nil_iff.mp hdrop
      rw [hdrop, splitList_nil]
      simp only [List.getLast?_singleton, Option.map_some', List.length_take]
      have htake : min c l.length = l.length := by omega
      rw [htake]
      rcases Nat.lt_or_ge l.length c with hlt | hge
      · rw [if_neg (by rw [Nat.mod_eq_of_lt hlt]; omega), Nat.mod_eq_of_lt hlt]
      · have : l.length = c := by omega
        rw [this]
        simp
    · have hsplit : splitList c (l.drop c) ≠ [] := splitList_ne_nil c hc _ hdrop
      rw [getLast?_cons_ne_nil _ _ hsplit]
      have hlen : (l.drop c).length ≤ n := by
        simp only [List.length_drop]; omega
      rw [ih (l.drop c) hlen hdrop]
      have hcl : c ≤ l.length := by
        by_contra hcon
        exact hdrop (List.drop_eq_nil_of_le (by omega))
      have hmod : (l.drop c).length % c = l.length % c := by
        rw [List.length_drop]
        conv_rhs => rw [(by omega : l.length = (l.length - c) + c)]
        rw [Nat.add_mod_right]
      rw [hmod]

theorem splitList_getLast (c : Nat) (hc : 0 < c) (l : List α) (hne : l ≠ []) :
    ((splitList c l).getLast?).map List.length =
      some (if l.length % c = 0 then c else l.length % c) :=
  splitList_getLast_aux c hc l.length l le_rfl hne

/-- Alignment: element `k` of chunk `j` is element `j * c + k` of the source. -/
theorem splitList_align_aux (c : Nat) (hc : 0 < c) :
    ∀ (n : Nat) (l : List α), l.length ≤ n →
      ∀ (j k : Nat) (ch : List α) (x : α),
        (splitList c l)[j]? = some ch → ch[k]? = some x →
          l[j * c + k]? = some x := by
  intro n
  induction n with
  | zero =>
    intro l hl j k ch x hch _
    have : l = [] := List.eq_nil_of_length_eq_zero (by omega)
    subst this
    rw [splitList_nil] at hch
    simp at hch
  | succ n ih =>
    intro l hl j k ch x hch hx
    rcases eq_or_ne l [] with rfl | hne
    · rw [splitList_nil] at hch; simp at hch
    · rw [splitList_cons c hc l hne] at hch
      have hpos : 0 < l.length := List.length_pos.mpr hne
      cases j with
      | zero =>
        simp only [List.getElem?_cons_zero, Option.some.injEq] at hch
        subst hch
        have hk : k < c := by
          by_contra hcon
          rw [List.getElem?_eq_none
            (by simp only [List.length_take]; omega : (l.take c).length ≤ k)] at hx
          exact Option.noConfusion hx
        rw [Nat.zero_mul, Nat.zero_add]
        rw [List.getElem?_take_of_lt hk] at hx
        exact hx
      | succ j =>
        simp only [List.getElem?_cons_succ] at hch
        have hlen : (l.drop c).length ≤ n := by
          simp only [List.length_drop]; omega
        have := ih (l.drop c) hlen j k ch x hch hx
        rw [List.getElem?_drop] at this
        rw [(by ring : (j + 1) * c + k = c + (j * c + k))]
        exact this

theorem splitList_align (c : Nat) (hc : 0 < c) (l : List α) (j k : Nat)
    (ch : List α) (x : α) (hch : (splitList c l)[j]? = some ch)
    (hx : ch[k]? = some x) : l[j * c + k]? = some x :=
  splitList_align_aux c hc l.length l le_rfl j k ch x hch hx

/-! ## Data model: accessor columns and tables

Modelled from the spec's data model (§3): an `AccessorColumn` is either a
constant scalar or a per-row array; a `Table` pairs one geometry column with
named accessor columns. -/

/-- An accessor column: a constant scalar applying to every row, or a per-row
array. -/
inductive AccessorColumn (α : Type) where
  | scalar (v : α)
  | perRow (xs : List α)
deriving DecidableEq, Repr

/-- A table: exactly one geometry column plus zero or more named accessor
columns. Row order is significant. -/
structure Table (G A : Type) where
  geometry : List G
  accessors : List (String × AccessorColumn A)
deriving DecidableEq, Repr

/-- The row count of a table is the geometry column's length. -/
def Table.rowCount (t : Table G A) : Nat := t.geometry.length

/-- Alignment check: every per-row accessor has exactly `rowCount` entries. -/
def Table.alignedB (t : Table G A) : Bool :=
  t.accessors.all fun p =>
    match p.2 with
    | .scalar _ => true
    | .perRow xs => xs.length == t.rowCount

/-- Slice an accessor column to a row range: scalars are untouched, per-row
arrays are sliced with the same range as the geometry. -/
def takeAccessor (c : Nat) : AccessorColumn α → AccessorColumn α
  | .scalar v => .scalar v
  | .perRow xs => .perRow (xs.take c)

def dropAccessor (c : Nat) : AccessorColumn α → AccessorColumn α
  | .scalar v => .scalar v
  | .perRow xs => .perRow (xs.drop c)

/-- First `c` rows of every column of the table. -/
def takeTable (c : Nat) (t : Table G A) : Table G A :=
  { geometry := t.geometry.take c
    accessors := t.accessors.map fun p => (p.1, takeAccessor c p.2) }

/-- All but the first `c` rows of every column of the table. -/
def dropTable (c : Nat) (t : Table G A) : Table G A :=
  { geometry := t.geometry.drop c
    accessors := t.accessors.map fun p => (p.1, dropAccessor c p.2) }

/-- Chunker on tables, modelled from the spec (§4.4): repeatedly slice off the
first `rows_per_chunk` rows of every column with the identical row range. -/
def splitTable (c : Nat) (t : Table G A) : List (Table G A) :=
  if h : 0 < c ∧ 0 < t.rowCount then
    takeTable c t :: splitTable c (dropTable c t)
  else []
termination_by t.rowCount
decreasing_by
  simp only [Table.rowCount, dropTable, List.length_drop] at h ⊢
  omega

/-- The per-row array stored at position `i` of the accessor list, if any. -/
def nthArray (t : Table G A) (i : Nat) : Option (List A) :=
  match t.accessors[i]? with
  | some (_, .perRow xs) => some xs
  | _ => none

theorem splitTable_map_geometry (c : Nat) (t : Table G A) :
    (splitTable c t).map Table.geometry = splitList c t.geometry := by
  unfold splitTable
  by_cases h : 0 < c ∧ 0 < t.rowCount
  · rw [dif_pos h]
    have hne : t.geometry ≠ [] := by
      intro hcon
      have : t.rowCount = 0 := by simp [Table.rowCount, hcon]
      omega
    rw [List.map_cons, splitTable_map_geometry c (dropTable c t),
      splitList_cons c h.1 t.geometry hne]
    rfl
  · rw [dif_neg h]
    push_neg at h
    rcases Nat.eq_zero_or_pos c with rfl | hc
    · rw [splitList_zero]; rfl
    · have : t.rowCount = 0 := by omega
      have : t.geometry = [] := List.eq_nil_of_length_eq_zero this
      rw [this, splitList_nil]
      rfl
termination_by t.rowCount
decreasing_by
  simp only [Table.rowCount, dropTable, List.length_drop] at h ⊢
  omega

theorem splitTable_rowCounts (c : Nat) (t : Table G A) :
    (splitTable c t).map Table.rowCount = (splitList c t.geometry).map List.length := by
  have h := splitTable_map_geometry c t
  calc (splitTable c t).map Table.rowCount
      = ((splitTable c t).map Table.geometry).map List.length := by
        rw [List.map_map]; rfl
    _ = (splitList c t.geometry).map List.length := by rw [h]

theorem nthArray_takeTable (c : Nat) (t : Table G A) (i : Nat) :
    nthArray (takeTable c t) i = (nthArray t i).map (List.take c) := by
  simp only [nthArray, takeTable, List.getElem?_map]
  cases h : t.accessors[i]? with
  | none => rfl
  | some p =>
    rcases p with ⟨name, col⟩
    cases col <;> rfl

theorem nthArray_dropTable (c : Nat) (t : Table G A) (i : Nat) :
    nthArray (dropTable c t) i = (nthArray t i).map (List.drop c) := by
  simp only [nthArray, dropTable, List.getElem?_map]
  cases h : t.accessors[i]? with
  | none => rfl
  | some p =>
    rcases p with ⟨name, col⟩
    cases col <;> rfl

/-- Chunking the table chunks every per-row accessor column with the same row
ranges as the geometry, provided the column is aligned with the row count. -/
theorem splitTable_map_nthArray (c : Nat) (t : Table G A) (i : Nat)
    (xs : List A) (hx : nthArray t i = some xs)
    (hlen : xs.length = t.rowCount) :
    (splitTable c t).map (fun ch => (nthArray ch i).getD []) = splitList c xs := by
  unfold splitTable
  by_cases h : 0 < c ∧ 0 < t.rowCount
  · rw [dif_pos h]
    have hne : xs ≠ [] := by
      intro hcon
      rw [hcon] at hlen
      simp at hlen
      omega
    rw [List.map_cons, splitList_cons c h.1 xs hne]
    have h1 : (nthArray (takeTable c t) i).getD [] = xs.take c := by
      rw [nthArray_takeTable, hx]; rfl
    have h2 : nthArray (dropTable c t) i = some (xs.drop c) := by
      rw [nthArray_dropTable, hx]; rfl
    have h3 : (xs.drop c).length = (dropTable c t).rowCount := by
      simp only [List.length_drop, Table.rowCount, dropTable, hlen]
    rw [h1, splitTable_map_nthArray c (dropTable c t) i (xs.drop c) h2 h3]
  · rw [dif_neg h]
    push_neg at h
    rcases Nat.eq_zero_or_pos c with rfl | hc
    · rw [splitList_zero]; rfl
    · have hr : t.rowCount = 0 := by omega
      have : xs = [] := List.eq_nil_of_length_eq_zero (by omega)
      rw [this, splitList_nil]
      rfl
termination_by t.rowCount
decreasing_by
  simp only [Table.rowCount, dropTable, List.length_drop] at h ⊢
  omega

/-- An aligned table's per-row accessor columns all have `rowCount` entries. -/
theorem alignedB_nthArray (t : Table G A) (ht : t.alignedB = true) (i : Nat)
    (xs : List A) (hx : nthArray t i = some xs) : xs.length = t.rowCount := by
  unfold nthArray at hx
  cases hacc : t.accessors[i]? with
  | none => rw [hacc] at hx; exact Option.noConfusion hx
  | some p =>
    rw [hacc] at hx
    rcases p with ⟨name, col⟩
    cases col with
    | scalar v => exact Option.noConfusion hx
    | perRow ys =>
      simp only [Option.some.injEq] at hx
      have hmem : (name, AccessorColumn.perRow ys) ∈ t.accessors :=
        List.getElem?_mem hacc
      have hall := List.all_eq_true.mp ht _ hmem
      rw [← hx]
      simpa using hall

theorem splitTable_length_eq (c : Nat) (t : Table G A) :
    (splitTable c t).length = (splitList c t.geometry).length := by
  rw [← splitTable_map_geometry c t, List.length_map]

theorem splitTable_getElem_geometry (c : Nat) (t : Table G A) (j : Nat)
    (ch : Table G A) (hch : (splitTable c t)[j]? = some ch) :
    (splitList c t.geometry)[j]? = some ch.geometry := by
  rw [← splitTable_map_geometry c t, List.getElem?_map, hch]
  rfl

/-- Embeds `HeatmapLayer._default_rows_per_chunk` (src/lonboard/_layer.py:975-977):
the heatmap layer overrides the default chunk plan and returns the full row
count of its table (`len(self.table)`), forcing a single chunk. -/
def HeatmapLayer_default_rows_per_chunk (t : Table G A) : Nat := t.rowCount

/-- A concrete example table used by witnesses: 3 rows, one per-row accessor
and one scalar accessor. -/
def exampleTable : Table Nat Nat :=
  { geometry := [10, 20, 30]
    accessors := [("get_radius", .perRow [1, 2, 3]), ("get_line_width", .scalar 7)] }

/-- Claim C3: for every Table and valid rows_per_chunk, concatenating the
chunks of `split` in sequence order reconstructs the table's rows in original
order for every column (geometry and all per-row accessors), and each chunk
slices every column with the identical row range: row `k` of chunk `j` is row
`j * rows_per_chunk + k` of the source table. -/
theorem splitTable_roundtrip_and_aligned (G A : Type) (c : Nat) (hc : 0 < c)
    (t : Table G A) (ht : t.alignedB = true) :
    ((splitTable c t).map Table.geometry).flatten = t.geometry
    ∧ (∀ i xs, nthArray t i = some xs →
        ((splitTable c t).map (fun ch => (nthArray ch i).getD [])).flatten = xs)
    ∧ (∀ j ch, (splitTable c t)[j]? = some ch →
        (∀ k g, ch.geometry[k]? = some g → t.geometry[j * c + k]? = some g)
        ∧ (∀ i cxs xs k a, nthArray ch i = some cxs → nthArray t i = some xs →
            cxs[k]? = some a → xs[j * c + k]? = some a)) := by
  refine ⟨?_, ?_, ?_⟩
  · rw [splitTable_map_geometry c t]
    exact splitList_join c hc t.geometry
  · intro i xs hx
    rw [splitTable_map_nthArray c t i xs hx (alignedB_nthArray t ht i xs hx)]
    exact splitList_join c hc xs
  · intro j ch hch
    constructor
    · intro k g hg
      exact splitList_align c hc t.geometry j k ch.geometry g
        (splitTable_getElem_geometry c t j ch hch) hg
    · intro i cxs xs k a hcxs hxs ha
      have hmap := splitTable_map_nthArray c t i xs hxs
        (alignedB_nthArray t ht i xs hxs)
      have hj : (splitList c xs)[j]? = some cxs := by
        rw [← hmap, List.getElem?_map, hch]
        simp [hcxs]
      exact splitList_align c hc xs j k cxs a hj ha

/-- Witness for C3 on a concrete 3-row table with chunk size 2. -/
theorem splitTable_roundtrip_and_aligned_witness :
    (0 < 2 ∧ exampleTable.alignedB = true)
    ∧ ((splitTable 2 exampleTable).map Table.geometry).flatten
        = exampleTable.geometry :=
  ⟨⟨by decide, by decide⟩,
    (splitTable_roundtrip_and_aligned Nat Nat 2 (by decide) exampleTable
      (by decide)).1⟩

/-- Claim C4: for every table with at least one row and every
`rows_per_chunk ≥ 1`, `split` produces exactly `ceil(rowCount / c)` chunks;
every chunk but the last has exactly `c` rows; the last has `rowCount mod c`
rows, or `c` rows when the division is exact. -/
theorem splitTable_chunk_counts (G A : Type) (c : Nat) (hc : 1 ≤ c)
    (t : Table G A) (hr : 1 ≤ t.rowCount) :
    (splitTable c t).length = (t.rowCount + c - 1) / c
    ∧ (∀ ch ∈ (splitTable c t).dropLast, ch.rowCount = c)
    ∧ ((splitTable c t).getLast?).map Table.rowCount =
        some (if t.rowCount % c = 0 then c else t.rowCount % c) := by
  have hne : t.geometry ≠ [] := by
    intro hcon
    have : t.rowCount = 0 := by simp [Table.rowCount, hcon]
    omega
  refine ⟨?_, ?_, ?_⟩
  · rw [splitTable_length_eq c t, splitList_length c hc t.geometry]
    rfl
  · intro ch hch
    have hmem : ch.geometry ∈ ((splitTable c t).map Table.geometry).dropLast := by
      rw [← List.map_dropLast]
      exact List.mem_map_of_mem Table.geometry hch
    rw [splitTable_map_geometry c t] at hmem
    exact splitList_dropLast c hc t.geometry ch.geometry hmem
  · have hmap : ((splitTable c t).map Table.geometry).getLast?
        = (splitTable c t).getLast?.map Table.geometry := List.getLast?_map ..
    rw [splitTable_map_geometry c t] at hmap
    calc ((splitTable c t).getLast?).map Table.rowCount
        = (((splitTable c t).getLast?).map Table.geometry).map List.length := by
          rw [Option.map_map]; rfl
      _ = ((splitList c t.geometry).getLast?).map List.length := by rw [← hmap]
      _ = some (if t.rowCount % c = 0 then c else t.rowCount % c) :=
          splitList_getLast c hc t.geometry hne

/-- Witness for C4: 3 rows split with rows_per_chunk 2 gives 2 chunks. -/
theorem splitTable_chunk_counts_witness :
    (1 ≤ 2 ∧ 1 ≤ exampleTable.rowCount)
    ∧ (splitTable 2 exampleTable).length = (exampleTable.rowCount + 2 - 1) / 2 :=
  ⟨⟨by decide, by decide⟩,
    (splitTable_chunk_counts Nat Nat 2 (by decide) exampleTable (by decide)).1⟩

/-- Claim C5: the heatmap layer's rendering requires whole-dataset
aggregation, so its plan override returns the table's full row count
(regardless of any byte-size estimate, which it never consults), and splitting
with that plan yields a single chunk. -/
theorem heatmap_single_chunk (G A : Type) (t : Table G A) :
    HeatmapLayer_default_rows_per_chunk t = t.rowCount
    ∧ (0 < t.rowCount →
        (splitTable (HeatmapLayer_default_rows_per_chunk t) t).length = 1) := by
  refine ⟨rfl, ?_⟩
  intro hr
  rw [HeatmapLayer_default_rows_per_chunk, splitTable_length_eq,
    splitList_length t.rowCount hr t.geometry]
  have hlen : t.geometry.length = t.rowCount := rfl
  rw [hlen]
  apply Nat.div_eq_of_lt_le
  · omega
  · omega

/-- Witness for C5 at the concrete example table. -/
theorem heatmap_single_chunk_witness :
    0 < exampleTable.rowCount
    ∧ (splitTable (HeatmapLayer_default_rows_per_chunk exampleTable)
        exampleTable).length = 1 :=
  ⟨by decide,
    (heatmap_single_chunk Nat Nat exampleTable).2 (by decide)⟩

/-! ## ChunkPlanner -/

/-- Modelled from the spec: the estimated average per-row byte footprint,
total encoded byte size of the table divided by its row count
(`infer_rows_per_chunk` from `lonboard._serialization` is not among the
provided sources; only its caller `BaseArrowLayer._default_rows_per_chunk`,
src/lonboard/_layer.py:110-112, is). -/
def bytes_per_row (totalBytes rowCount : Nat) : ℚ :=
  (totalBytes : ℚ) / (rowCount : ℚ)

/-- Modelled from the spec: `rows_per_chunk = max(1, floor(max_chunk_bytes /
bytes_per_row))`, clamped to at most the table's row count. -/
def infer_rows_per_chunk (totalBytes rowCount maxChunkBytes : Nat) : Nat :=
  min rowCount
    (max 1 (Int.toNat ⌊(maxChunkBytes : ℚ) / bytes_per_row totalBytes rowCount⌋))

/-- Claim C2: the planner computes `max(1, floor(max_chunk_bytes /
bytes_per_row))` clamped to at most the row count, hence for every table with
`rowCount ≥ 1` and every `max_chunk_bytes > 0` the plan satisfies
`1 ≤ plan ≤ rowCount`. -/
theorem infer_rows_per_chunk_bounds (totalBytes rowCount maxChunkBytes : Nat)
    (hr : 1 ≤ rowCount) (hm : 0 < maxChunkBytes) :
    1 ≤ infer_rows_per_chunk totalBytes rowCount maxChunkBytes
    ∧ infer_rows_per_chunk totalBytes rowCount maxChunkBytes ≤ rowCount := by
  constructor
  · exact le_min hr (le_max_left 1 _)
  · exact min_le_left _ _

/-- Witness for C2, on the spec's scenario: 10,000 rows of 40 bytes each with
a 1,000,000-byte ceiling plan to 25,000 rows, clamped to the 10,000-row
count. -/
theorem infer_rows_per_chunk_bounds_witness :
    (1 ≤ 10000 ∧ 0 < 1000000)
    ∧ 1 ≤ infer_rows_per_chunk 400000 10000 1000000
    ∧ infer_rows_per_chunk 400000 10000 1000000 = 10000 :=
  ⟨⟨by decide, by decide⟩,
    (infer_rows_per_chunk_bounds 400000 10000 1000000 (by decide) (by decide)).1,
    by norm_num [infer_rows_per_chunk, bytes_per_row]⟩

/-! ## Validation errors -/

/-- The error kinds of the spec's §7. In the source the length mismatch is a
`traitlets.TraitError` with the given message and the unknown-field failure a
`TypeError` naming the unexpected keyword; the spec groups them under these
names. -/
inductive LayerError where
  | lengthMismatchError (msg : String)
  | unknownFieldError (names : List String)
  | unsupportedGeometryError
deriving DecidableEq, Repr

/-- Embeds `_validate_accessor_length` (src/lonboard/_layer.py:616-624): when the
proposed accessor value is an array (`pa.ChunkedArray`/`pa.Array`), its length
must equal the table's; scalars pass through unchecked. -/
def validate_accessor_length (tableLen : Nat) (value : AccessorColumn α) :
    Except LayerError (AccessorColumn α) :=
  match value with
  | .perRow xs =>
    if xs.length ≠ tableLen then
      .error (.lengthMismatchError "accessor must have same length as table")
    else .ok value
  | .scalar _ => .ok value

/-- Claim C1: an array-valued accessor whose length differs from the table's
row count is rejected with the length-mismatch error; one whose length matches
is accepted; constant scalar accessors are exempt from the check. -/
theorem validate_accessor_length_spec (α : Type) (tableLen : Nat)
    (v : AccessorColumn α) :
    (∀ xs, v = .perRow xs → xs.length ≠ tableLen →
      validate_accessor_length tableLen v =
        .error (.lengthMismatchError "accessor must have same length as table"))
    ∧ (∀ xs, v = .perRow xs → xs.length = tableLen →
        validate_accessor_length tableLen v = .ok v)
    ∧ (∀ a, v = .scalar a → validate_accessor_length tableLen v = .ok v) := by
  refine ⟨?_, ?_, ?_⟩
  · intro xs hv hne
    subst hv
    simp [validate_accessor_length, hne]
  · intro xs hv heq
    subst hv
    simp [validate_accessor_length, heq]
  · intro a hv
    subst hv
    simp [validate_accessor_length]

/-- Witness for C1, the spec's scenario: a 2-row table accepts `radius`
array `[1, 2]` and rejects `[1]` and `[1, 2, 3]`. -/
theorem validate_accessor_length_witness :
    validate_accessor_length 2 (AccessorColumn.perRow [(1 : Nat), 2])
      = .ok (AccessorColumn.perRow [1, 2])
    ∧ validate_accessor_length 2 (AccessorColumn.perRow [(1 : Nat)])
      = .error (.lengthMismatchError "accessor must have same length as table")
    ∧ validate_accessor_length 2 (AccessorColumn.perRow [(1 : Nat), 2, 3])
      = .error (.lengthMismatchError "accessor must have same length as table") :=
  ⟨(validate_accessor_length_spec Nat 2 (AccessorColumn.perRow [1, 2])).2.1
      [1, 2] rfl (by decide),
    (validate_accessor_length_spec Nat 2 (AccessorColumn.perRow [1])).1
      [1] rfl (by decide),
    (validate_accessor_length_spec Nat 2 (AccessorColumn.perRow [1, 2, 3])).1
      [1, 2, 3] rfl (by decide)⟩

/-! ## GeometryEncoder type gate -/

/-- The geometry types of the GeoArrow encoding; Point and MultiPoint are
distinct fundamental types. -/
inductive GeometryType where
  | point
  | multiPoint
  | lineString
  | multiLineString
  | polygon
  | multiPolygon
deriving DecidableEq, Repr

/-- Modelled from the spec: the detected fundamental type of a geometry
sequence — `none` when the sequence is empty or mixes types. (The trait
validation code `PyarrowTableTrait` from `lonboard.traits` is not among the
provided sources; src/lonboard/_layer.py:447-449 and 979 only declare each
layer's allowed set.) -/
def detected_type : List GeometryType → Option GeometryType
  | [] => none
  | t :: rest => if rest.all (fun u => u == t) then some t else none

/-- Modelled from the spec: `encode(geometries, allowed_types)` fails with
`UnsupportedGeometryError` when the sequence is empty, mixes fundamental
types, or its detected type is not in the allowed set; otherwise it encodes,
here summarised as the type tag and row count. -/
def encode (geoms : List GeometryType) (allowed : List GeometryType) :
    Except LayerError (GeometryType × Nat) :=
  match detected_type geoms with
  | none => .error .unsupportedGeometryError
  | some t =>
    if allowed.contains t then .ok (t, geoms.length)
    else .error .unsupportedGeometryError

/-- Claim C6: encoding fails with `UnsupportedGeometryError` on an empty
sequence, on mixed fundamental types (no detected type), and on a detected
type outside the allowed set; it succeeds when the detected type is
allowed. -/
theorem encode_type_gate (geoms allowed : List GeometryType) :
    (geoms = [] → encode geoms allowed = .error .unsupportedGeometryError)
    ∧ (detected_type geoms = none →
        encode geoms allowed = .error .unsupportedGeometryError)
    ∧ (∀ t, detected_type geoms = some t → allowed.contains t = false →
        encode geoms allowed = .error .unsupportedGeometryError)
    ∧ (∀ t, detected_type geoms = some t → allowed.contains t = true →
        encode geoms allowed = .ok (t, geoms.length)) := by
  refine ⟨?_, ?_, ?_, ?_⟩
  · intro h
    subst h
    rfl
  · intro h
    simp [encode, h]
  · intro t ht hmem
    have hnm : t ∉ allowed := by simp_all
    simp [encode, ht, hnm]
  · intro t ht hmem
    have hin : t ∈ allowed := by simp_all
    simp [encode, ht, hin]

/-- Witness for C6, the spec's gate scenario: Point geometries against a
Polygon-only allow-list fail; against an allow-list containing Point they
succeed. -/
theorem encode_type_gate_witness :
    (detected_type [GeometryType.point, GeometryType.point]
        = some GeometryType.point
      ∧ [GeometryType.polygon].contains GeometryType.point = false
      ∧ [GeometryType.point].contains GeometryType.point = true)
    ∧ encode [GeometryType.point, GeometryType.point] [GeometryType.polygon]
        = .error .unsupportedGeometryError
    ∧ encode [GeometryType.point, GeometryType.point] [GeometryType.point]
        = .ok (GeometryType.point, 2) :=
  ⟨⟨by decide, by decide, by decide⟩,
    (encode_type_gate [GeometryType.point, GeometryType.point]
      [GeometryType.polygon]).2.2.1 GeometryType.point (by decide) (by decide),
    (encode_type_gate [GeometryType.point, GeometryType.point]
      [GeometryType.point]).2.2.2 GeometryType.point (by decide) (by decide)⟩

/-! ## Unknown accessor names -/

/-- The accessor names `ScatterplotLayer` declares
(src/lonboard/_layer.py:566-614). -/
def scatterplot_accessor_names : List String :=
  ["get_radius", "get_fill_color", "get_line_color", "get_line_width"]

/-- Modelled from the spec: layer construction (the traitlets/ipywidgets
keyword machinery, not among the provided sources; exercised by
src/tests/test_layer.py:24-29) rejects accessor names outside the layer
kind's declared schema, enumerating the offending names, and otherwise
validates every supplied accessor's length. -/
def construct_layer (schema : List String) (tableLen : Nat)
    (supplied : List (String × AccessorColumn α)) :
    Except LayerError (List (String × AccessorColumn α)) :=
  let offending := (supplied.map Prod.fst).filter (fun n => !(schema.contains n))
  if offending.isEmpty then
    if supplied.all (fun p => (validate_accessor_length tableLen p.2).isOk) then
      .ok supplied
    else
      .error (.lengthMismatchError "accessor must have same length as table")
  else .error (.unknownFieldError offending)

/-- Claim C8: supplying any accessor name not in the layer kind's declared
schema makes construction fail with `UnknownFieldError`, whose payload
enumerates exactly the offending names. -/
theorem construct_layer_unknown_field (α : Type) (schema : List String)
    (tableLen : Nat) (supplied : List (String × AccessorColumn α))
    (hbad : ∃ p ∈ supplied, schema.contains p.1 = false) :
    construct_layer schema tableLen supplied
      = .error (.unknownFieldError
          ((supplied.map Prod.fst).filter (fun n => !(schema.contains n))))
    ∧ ∀ n, n ∈ (supplied.map Prod.fst).filter (fun n => !(schema.contains n))
        ↔ (n ∈ supplied.map Prod.fst ∧ schema.contains n = false) := by
  obtain ⟨p, hp, hpc⟩ := hbad
  have hmem : p.1 ∈ (supplied.map Prod.fst).filter (fun n => !(schema.contains n)) := by
    rw [List.mem_filter]
    exact ⟨List.mem_map_of_mem Prod.fst hp, by simp_all⟩
  have hne : ¬ ((supplied.map Prod.fst).filter
      (fun n => !(schema.contains n))).isEmpty = true := by
    intro hcon
    rw [List.isEmpty_iff] at hcon
    rw [hcon] at hmem
    exact List.not_mem_nil _ hmem
  constructor
  · unfold construct_layer
    simp only [if_neg hne]
  · intro n
    rw [List.mem_filter]
    simp

/-- Witness for C8, the spec's scenario: unknown accessor name `get_unicorn`
supplied against the point-layer schema fails, naming `get_unicorn`. -/
theorem construct_layer_unknown_field_witness :
    scatterplot_accessor_names.contains "get_unicorn" = false
    ∧ construct_layer scatterplot_accessor_names 2
        [("get_unicorn", AccessorColumn.scalar (1 : Nat))]
      = .error (.unknownFieldError ["get_unicorn"]) :=
  ⟨by decide,
    (construct_layer_unknown_field Nat scatterplot_accessor_names 2
      [("get_unicorn", AccessorColumn.scalar 1)]
      ⟨("get_unicorn", AccessorColumn.scalar 1), by simp, by decide⟩).1⟩

/-! ## from_geopandas: reprojection, warnings, and non-mutation

`BaseArrowLayer.from_geopandas` (src/lonboard/_layer.py:114-144) is embedded
as a program over an explicit store of frame objects so that aliasing and
in-place mutation are observable: Python frame variables are indices into the
store; `to_crs` and `.copy()` allocate fresh frames; auto-downcasting writes
the frame it is handed in place. -/

/-- A coordinate reference system identifier. `EPSG_4326` and `OGC_84` are
the two WGS84-equivalent identifiers of `lonboard._constants` that the source
accepts without reprojection. -/
inductive CRS where
  | epsg4326
  | ogc84
  | other (id : Nat)
deriving DecidableEq, Repr

/-- A GeoDataFrame as the core consumes it (spec §6): a declared CRS
(possibly absent), a geometry column of coordinates, and numeric attribute
columns. -/
structure GeoDataFrame where
  crs : Option CRS
  geometry : List (ℚ × ℚ)
  attrs : List Int
deriving DecidableEq, Repr

/-- Embeds `gdf.to_crs(target)` (the geopandas call at src/lonboard/_layer.py:137):
returns a NEW frame in the target CRS with every coordinate transformed from
the frame's declared CRS; `reproj src` is the external library's coordinate
transformation out of CRS `src`. -/
def to_crs (reproj : CRS → ℚ × ℚ → ℚ × ℚ) (g : GeoDataFrame) (target : CRS) :
    GeoDataFrame :=
  { crs := some target
    geometry :=
      match g.crs with
      | some src => g.geometry.map (reproj src)
      | none => g.geometry
    attrs := g.attrs }

/-- The store of live frame objects; a Python variable bound to a frame is an
index into the store. -/
structure PyState where
  frames : List GeoDataFrame
deriving Repr

def PyState.alloc (s : PyState) (g : GeoDataFrame) : PyState × Nat :=
  ({ frames := s.frames ++ [g] }, s.frames.length)

def PyState.read (s : PyState) (r : Nat) : GeoDataFrame :=
  (s.frames[r]?).getD { crs := none, geometry := [], attrs := [] }

def PyState.write (s : PyState) (r : Nat) (g : GeoDataFrame) : PyState :=
  { frames := s.frames.set r g }

/-- Modelled from the spec: `lonboard._utils.auto_downcast` (not among the
provided sources) narrows the numeric columns of the frame it is handed, in
place, `down` being the best-effort lossless narrowing — which is why the
caller at src/lonboard/_layer.py:141 hands it `gdf.copy()`. -/
def auto_downcast (down : Int → Int) (s : PyState) (r : Nat) : PyState × Nat :=
  let g := s.read r
  (s.write r { g with attrs := g.attrs.map down }, r)

/-- Modelled from the spec: `geopandas_to_geoarrow` encodes the frame's
geometry and attribute columns into a columnar table; the encoded row data is
recorded verbatim here. -/
structure EncodedTable where
  geometry : List (ℚ × ℚ)
  attrs : List Int
deriving DecidableEq, Repr

def geopandas_to_geoarrow (g : GeoDataFrame) : EncodedTable :=
  { geometry := g.geometry, attrs := g.attrs }

/-- Lines 135-137 of src/lonboard/_layer.py: when the frame declares a CRS
other than EPSG:4326/OGC:84, emit the warning and rebind to a freshly
allocated reprojected frame. Returns (store, bound frame ref, warnings). -/
def reproject_step (reproj : CRS → ℚ × ℚ → ℚ × ℚ) (s : PyState) (r : Nat) :
    PyState × Nat × List String :=
  match (s.read r).crs with
  | some c =>
    if c ≠ CRS.epsg4326 ∧ c ≠ CRS.ogc84 then
      let a := s.alloc (to_crs reproj (s.read r) CRS.ogc84)
      (a.1, a.2, ["GeoDataFrame being reprojected to EPSG:4326"])
    else (s, r, [])
  | none => (s, r, [])

/-- Lines 139-141 of src/lonboard/_layer.py: when auto_downcast is on, rebind
to a fresh copy and downcast the copy in place. -/
def downcast_step (down : Int → Int) (flag : Bool) (s : PyState) (r : Nat) :
    PyState × Nat :=
  if flag then
    let a := s.alloc (s.read r)
    auto_downcast down a.1 a.2
  else (s, r)

/-- Embeds `BaseArrowLayer.from_geopandas` (src/lonboard/_layer.py:114-144): CRS
check and reprojection, optional auto-downcast on a copy, then encoding of
the bound frame. Returns the final store, the encoded table, and the
warnings emitted. -/
def from_geopandas (reproj : CRS → ℚ × ℚ → ℚ × ℚ) (down : Int → Int)
    (autoDowncastFlag : Bool) (s : PyState) (gdfRef : Nat) :
    PyState × EncodedTable × List String :=
  let s1 := reproject_step reproj s gdfRef
  let s2 := downcast_step down autoDowncastFlag s1.1 s1.2.1
  (s2.1, geopandas_to_geoarrow (s2.1.read s2.2), s1.2.2)

theorem frames_alloc_length (s : PyState) (g : GeoDataFrame) :
    (s.alloc g).1.frames.length = s.frames.length + 1 := by
  simp [PyState.alloc]

theorem read_alloc_new (s : PyState) (g : GeoDataFrame) :
    (s.alloc g).1.read (s.alloc g).2 = g := by
  simp [PyState.alloc, PyState.read, List.getElem?_concat_length]

theorem frames_alloc_getElem (s : PyState) (g : GeoDataFrame) (r : Nat)
    (h : r < s.frames.length) : (s.alloc g).1.frames[r]? = s.frames[r]? := by
  simp only [PyState.alloc]
  rw [List.getElem?_append]
  simp [h]

theorem frames_write_getElem_ne (s : PyState) (g : GeoDataFrame) (r r2 : Nat)
    (h : r ≠ r2) : (s.write r g).frames[r2]? = s.frames[r2]? := by
  simp [PyState.write, List.getElem?_set_ne, h]

theorem read_write_eq (s : PyState) (r : Nat) (g : GeoDataFrame)
    (h : r < s.frames.length) : (s.write r g).read r = g := by
  simp [PyState.write, PyState.read, List.getElem?_set_self, h]

/-- The reprojection step never touches an existing frame. -/
theorem reproject_step_frames (reproj : CRS → ℚ × ℚ → ℚ × ℚ) (s : PyState)
    (r k : Nat) (hk : k < s.frames.length) :
    (reproject_step reproj s r).1.frames[k]? = s.frames[k]? := by
  unfold reproject_step
  cases (s.read r).crs with
  | none => rfl
  | some c =>
    dsimp only
    by_cases hc : c ≠ CRS.epsg4326 ∧ c ≠ CRS.ogc84
    · rw [if_pos hc]
      exact frames_alloc_getElem s _ k hk
    · rw [if_neg hc]

/-- The reprojection step leaves the bound ref inside the store. -/
theorem reproject_step_ref_lt (reproj : CRS → ℚ × ℚ → ℚ × ℚ) (s : PyState)
    (r : Nat) (hr : r < s.frames.length) :
    (reproject_step reproj s r).2.1 < (reproject_step reproj s r).1.frames.length := by
  unfold reproject_step
  cases (s.read r).crs with
  | none => exact hr
  | some c =>
    dsimp only
    by_cases hc : c ≠ CRS.epsg4326 ∧ c ≠ CRS.ogc84
    · rw [if_pos hc]
      simp [PyState.alloc]
    · rw [if_neg hc]
      exact hr

/-- The downcast step never touches an existing frame: it writes only the
freshly allocated copy. -/
theorem downcast_step_frames (down : Int → Int) (flag : Bool) (s : PyState)
    (r k : Nat) (hk : k < s.frames.length) :
    (downcast_step down flag s r).1.frames[k]? = s.frames[k]? := by
  cases flag with
  | false => rfl
  | true =>
    show (auto_downcast down (s.alloc (s.read r)).1
        (s.alloc (s.read r)).2).1.frames[k]? = s.frames[k]?
    simp only [auto_downcast]
    rw [frames_write_getElem_ne]
    · exact frames_alloc_getElem s _ k hk
    · simp only [PyState.alloc]
      omega

/-- What the downcast step binds: the original frame when off; a copy whose
attribute columns are downcast, geometry and CRS untouched, when on. -/
theorem downcast_step_read (down : Int → Int) (flag : Bool) (s : PyState)
    (r : Nat) :
    (downcast_step down flag s r).1.read (downcast_step down flag s r).2
      = if flag then
          { s.read r with attrs := (s.read r).attrs.map down }
        else s.read r := by
  cases flag with
  | false => rfl
  | true =>
    show (auto_downcast down (s.alloc (s.read r)).1 (s.alloc (s.read r)).2).1.read
        (auto_downcast down (s.alloc (s.read r)).1 (s.alloc (s.read r)).2).2
      = { s.read r with attrs := (s.read r).attrs.map down }
    simp only [auto_downcast]
    rw [read_write_eq, read_alloc_new]
    · simp [PyState.alloc]

theorem frames_write_length (s : PyState) (r : Nat) (g : GeoDataFrame) :
    (s.write r g).frames.length = s.frames.length := by
  simp [PyState.write]

theorem reproject_step_length_ge (reproj : CRS → ℚ × ℚ → ℚ × ℚ) (s : PyState)
    (r : Nat) :
    s.frames.length ≤ (reproject_step reproj s r).1.frames.length := by
  unfold reproject_step
  cases (s.read r).crs with
  | none => exact le_rfl
  | some c =>
    dsimp only
    by_cases hc : c ≠ CRS.epsg4326 ∧ c ≠ CRS.ogc84
    · rw [if_pos hc]
      simp [PyState.alloc]
    · rw [if_neg hc]

/-- A frame with a CRS outside the WGS84-equivalent pair: the step warns and
binds a freshly reprojected frame. -/
theorem reproject_step_other (reproj : CRS → ℚ × ℚ → ℚ × ℚ) (s : PyState)
    (r : Nat) (c : CRS) (hcrs : (s.read r).crs = some c)
    (h1 : c ≠ CRS.epsg4326) (h2 : c ≠ CRS.ogc84) :
    (reproject_step reproj s r).2.2
      = ["GeoDataFrame being reprojected to EPSG:4326"]
    ∧ (reproject_step reproj s r).1.read (reproject_step reproj s r).2.1
      = to_crs reproj (s.read r) CRS.ogc84 := by
  unfold reproject_step
  rw [hcrs]
  dsimp only
  rw [if_pos ⟨h1, h2⟩]
  exact ⟨rfl, read_alloc_new s (to_crs reproj (s.read r) CRS.ogc84)⟩

/-- A frame with no declared CRS: the step does nothing. -/
theorem reproject_step_none (reproj : CRS → ℚ × ℚ → ℚ × ℚ) (s : PyState)
    (r : Nat) (hcrs : (s.read r).crs = none) :
    reproject_step reproj s r = (s, r, []) := by
  unfold reproject_step
  rw [hcrs]

/-- A frame already in a WGS84-equivalent CRS: the step does nothing. -/
theorem reproject_step_target (reproj : CRS → ℚ × ℚ → ℚ × ℚ) (s : PyState)
    (r : Nat) (c : CRS) (hcrs : (s.read r).crs = some c)
    (hc : c = CRS.epsg4326 ∨ c = CRS.ogc84) :
    reproject_step reproj s r = (s, r, []) := by
  unfold reproject_step
  rw [hcrs]
  dsimp only
  rw [if_neg (by tauto)]

/-- Claim C7: a frame declaring a CRS that is neither EPSG:4326 nor OGC:84 is
reprojected to the WGS84-equivalent target before encoding and a warning is
emitted; the warning is non-fatal: the operation continues and the encoded
geometry is the reprojected coordinates. -/
theorem from_geopandas_reprojects (reproj : CRS → ℚ × ℚ → ℚ × ℚ)
    (down : Int → Int) (flag : Bool) (s : PyState) (r : Nat) (c : CRS)
    (hcrs : (s.read r).crs = some c) (h1 : c ≠ CRS.epsg4326)
    (h2 : c ≠ CRS.ogc84) :
    (from_geopandas reproj down flag s r).2.2
      = ["GeoDataFrame being reprojected to EPSG:4326"]
    ∧ (from_geopandas reproj down flag s r).2.1.geometry
      = (s.read r).geometry.map (reproj c) := by
  obtain ⟨hw, hread⟩ := reproject_step_other reproj s r c hcrs h1 h2
  unfold from_geopandas
  dsimp only
  refine ⟨hw, ?_⟩
  rw [downcast_step_read, hread]
  cases flag with
  | false => simp [geopandas_to_geoarrow, to_crs, hcrs]
  | true => simp [geopandas_to_geoarrow, to_crs, hcrs]

/-- A one-frame store whose frame declares a non-WGS84 CRS, for witnesses. -/
def exampleFrameOther : GeoDataFrame :=
  { crs := some (CRS.other 3857), geometry := [((1 : ℚ), (2 : ℚ))], attrs := [5] }

def exampleStateOther : PyState := { frames := [exampleFrameOther] }

/-- A one-frame store whose frame declares no CRS, for witnesses. -/
def exampleFrameNone : GeoDataFrame :=
  { crs := none, geometry := [((3 : ℚ), (4 : ℚ))], attrs := [6] }

def exampleStateNone : PyState := { frames := [exampleFrameNone] }

/-- Witness for C7 at a one-frame store whose frame declares a non-WGS84
CRS. -/
theorem from_geopandas_reprojects_witness :
    ((exampleStateOther.read 0).crs = some (CRS.other 3857)
      ∧ CRS.other 3857 ≠ CRS.epsg4326 ∧ CRS.other 3857 ≠ CRS.ogc84)
    ∧ (from_geopandas (fun _ p => p) (fun x => x) true exampleStateOther 0).2.2
      = ["GeoDataFrame being reprojected to EPSG:4326"] :=
  ⟨⟨rfl, by decide, by decide⟩,
    (from_geopandas_reprojects (fun _ p => p) (fun x => x) true
      exampleStateOther 0 (CRS.other 3857) rfl (by decide) (by decide)).1⟩

/-- Claim C9: `from_geopandas` never mutates the caller's frame:
reprojection rebinds to a freshly allocated frame and auto-downcasting writes
only a freshly allocated copy, so the store's entry for the caller's frame is
unchanged by the whole call. -/
theorem from_geopandas_no_mutation (reproj : CRS → ℚ × ℚ → ℚ × ℚ)
    (down : Int → Int) (flag : Bool) (s : PyState) (r : Nat)
    (h : r < s.frames.length) :
    (from_geopandas reproj down flag s r).1.frames[r]? = s.frames[r]? := by
  unfold from_geopandas
  dsimp only
  rw [downcast_step_frames]
  · exact reproject_step_frames reproj s r r h
  · calc r < s.frames.length := h
      _ ≤ (reproject_step reproj s r).1.frames.length :=
        reproject_step_length_ge reproj s r

/-- Witness for C9: the caller's frame at index 0 is untouched. -/
theorem from_geopandas_no_mutation_witness :
    0 < exampleStateOther.frames.length
    ∧ (from_geopandas (fun _ p => p) (fun x => x) true
        exampleStateOther 0).1.frames[0]?
      = exampleStateOther.frames[0]? :=
  ⟨by decide,
    from_geopandas_no_mutation (fun _ p => p) (fun x => x) true
      exampleStateOther 0 (by decide)⟩

/-- Claim C10: a frame with no declared CRS is neither reprojected nor warned
about: no warning is emitted, the coordinates are encoded exactly as
supplied, and the encoded output (table and warnings) coincides with what the
same frame would produce had it declared the EPSG:4326 target CRS. -/
theorem from_geopandas_no_crs (reproj : CRS → ℚ × ℚ → ℚ × ℚ)
    (down : Int → Int) (flag : Bool) (s : PyState) (r : Nat)
    (h : r < s.frames.length) (hcrs : (s.read r).crs = none) :
    (from_geopandas reproj down flag s r).2.2 = []
    ∧ (from_geopandas reproj down flag s r).2.1.geometry = (s.read r).geometry
    ∧ (from_geopandas reproj down flag
          (s.write r { s.read r with crs := some CRS.epsg4326 }) r).2
      = (from_geopandas reproj down flag s r).2 := by
  have hwread : (s.write r { s.read r with crs := some CRS.epsg4326 }).read r
      = { s.read r with crs := some CRS.epsg4326 } := read_write_eq s r _ h
  refine ⟨?_, ?_, ?_⟩
  · unfold from_geopandas
    dsimp only
    rw [reproject_step_none reproj s r hcrs]
  · unfold from_geopandas
    dsimp only
    rw [reproject_step_none reproj s r hcrs]
    dsimp only
    rw [downcast_step_read]
    cases flag with
    | false => rfl
    | true => rfl
  · unfold from_geopandas
    dsimp only
    rw [reproject_step_none reproj s r hcrs,
      reproject_step_target reproj _ r CRS.epsg4326 (by rw [hwread]) (Or.inl rfl)]
    dsimp only
    rw [downcast_step_read, downcast_step_read, hwread]
    cases flag with
    | false => rfl
    | true => rfl

/-- Witness for C10 at a one-frame store whose frame declares no CRS. -/
theorem from_geopandas_no_crs_witness :
    (0 < exampleStateNone.frames.length
      ∧ (exampleStateNone.read 0).crs = none)
    ∧ (from_geopandas (fun _ p => p) (fun x => x) true
        exampleStateNone 0).2.2 = [] :=
  ⟨⟨by decide, rfl⟩,
    (from_geopandas_no_crs (fun _ p => p) (fun x => x) true
      exampleStateNone 0 (by decide) rfl).1⟩

end Lonboard
